import Mathlib

/-!
Verification of the quiz-session state machine and answer-grading logic of
`src/index.tsx` (math_training). The TypeScript source is shallowly embedded:
JavaScript numbers are modelled as exact rationals (`Rat`); the JS builtin
`parseFloat` is modelled as an executable prefix parser returning `none` for
NaN; the asynchronous problem fetch is modelled by an outcome type whose
constructors are the distinguishable cases of the `try`/`catch` in
`generateDailyProblems`; the React component state (the six `useState` cells)
is a `Session` record and the event handlers are functions on it.
-/

namespace MathTraining

/-- The `MathProblem` interface of `src/index.tsx` (lines 7-12): question text,
numeric answer, explanation text and problem-type label. -/
structure MathProblem where
  question : String
  answer : Rat
  explanation : String
  type : String
  deriving Repr, DecidableEq

/-- The `HistoryItem` interface of `src/index.tsx` (lines 14-18): the answered
problem, the raw user answer text and the correctness flag. -/
structure HistoryItem where
  problem : MathProblem
  userAnswer : String
  isCorrect : Bool
  deriving Repr, DecidableEq

/-! ### The JS `parseFloat` builtin, modelled -/

/-- A non-NaN result of `parseFloat`: either an infinity (from an `Infinity`
literal) or a finite value, modelled as an exact rational. -/
inductive ParsedNum where
  | inf (neg : Bool)
  | fin (q : Rat)
  deriving Repr, DecidableEq

/-- Longest prefix of decimal digits, together with the rest of the input. -/
def takeDigits : List Char → List Char × List Char
  | [] => ([], [])
  | c :: cs =>
    if c.isDigit then
      let (ds, rest) := takeDigits cs
      (c :: ds, rest)
    else ([], c :: cs)

/-- Value of a list of decimal digits read as a base-10 numeral. -/
def digitsToNat (ds : List Char) : Nat :=
  ds.foldl (fun a c => a * 10 + (c.toNat - 48)) 0

/-- Ten to an integer power over `Rat` (the scale factor of an exponent part). -/
def pow10 (e : Int) : Rat :=
  if 0 ≤ e then ((10 : Rat) ^ e.toNat) else 1 / ((10 : Rat) ^ (-e).toNat)

/-- Parse an exponent part `e`/`E`, an optional sign, then at least one digit,
from the front of the input; `none` when no valid exponent part is present
(in which case `parseFloat` keeps only the mantissa, as JS does). -/
def parseExponentPart : List Char → Option Int
  | [] => none
  | c :: cs =>
    if c = 'e' ∨ c = 'E' then
      match cs with
      | '+' :: cs2 =>
        let (ds, _) := takeDigits cs2
        if ds.isEmpty then none else some (digitsToNat ds : Int)
      | '-' :: cs2 =>
        let (ds, _) := takeDigits cs2
        if ds.isEmpty then none else some (-(digitsToNat ds : Int))
      | _ =>
        let (ds, _) := takeDigits cs
        if ds.isEmpty then none else some (digitsToNat ds : Int)
    else none

/-- Model of the JS builtin `parseFloat` used at `src/index.tsx` line 111:
skip leading whitespace, read an optional sign, then the longest prefix that
is either `Infinity` or a decimal literal (digits, optional dot and fraction
digits, optional exponent part); `none` models a NaN result. -/
def parseFloat (s : String) : Option ParsedNum :=
  let cs0 := s.toList.dropWhile Char.isWhitespace
  let signed : Bool × List Char :=
    match cs0 with
    | '-' :: r => (true, r)
    | '+' :: r => (false, r)
    | r => (false, r)
  let neg := signed.1
  let cs := signed.2
  if cs.take 8 = "Infinity".toList then some (.inf neg)
  else
    let (intDs, cs1) := takeDigits cs
    let fracStep : List Char × List Char :=
      match cs1 with
      | '.' :: r => takeDigits r
      | r => ([], r)
    let fracDs := fracStep.1
    let cs2 := fracStep.2
    if intDs.isEmpty ∧ fracDs.isEmpty then none
    else
      let e := (parseExponentPart cs2).getD 0
      let mant : Rat :=
        (digitsToNat intDs : Rat) + (digitsToNat fracDs : Rat) / ((10 : Rat) ^ fracDs.length)
      let mag : Rat := mant * pow10 e
      some (.fin (if neg then -mag else mag))

/-! ### Grading -/

/-- The grading comparison of `src/index.tsx` line 113,
`Math.abs(numAnswer - currentProblem.answer) < 0.01`, lifted over a
`parseFloat` result: a NaN (`none`) or infinite value never satisfies it
(in JS, `NaN < 0.01` and `Infinity < 0.01` are both false). -/
def gradeAnswer (answerText : String) (p : MathProblem) : Bool :=
  match parseFloat answerText with
  | none => false
  | some (.inf _) => false
  | some (.fin q) => decide (|q - p.answer| < 1 / 100)

/-- The absolute difference of a parsed numeric value from the problem's
answer is strictly below the 0.01 tolerance; an infinite parsed value has
infinite difference, never below the tolerance. -/
def ParsedNum.withinTol : ParsedNum → Rat → Prop
  | .inf _, _ => False
  | .fin q, a => |q - a| < 1 / 100

instance : ∀ (v : ParsedNum) (a : Rat), Decidable (v.withinTol a)
  | .inf _, _ => .isFalse (fun h => h)
  | .fin _, _ => inferInstanceAs (Decidable (_ < _))

/-! ### The problem source (`generateDailyProblems`, lines 22-80) -/

/-- The three pre-authored fallback problems returned by the `catch` branch of
`generateDailyProblems` (`src/index.tsx` lines 74-78). -/
def fallbackProblems : List MathProblem :=
  [ { question := "25 × 44", answer := 1100,
      explanation := "把44拆分成4×11，然后25×4=100，100×11=1100", type := "乘法结合律" },
    { question := "135 + 289 + 65", answer := 489,
      explanation := "利用加法交换律，先算135+65=200，再加289等于489", type := "加法凑整" },
    { question := "47 × 99 + 47", answer := 4700,
      explanation := "提取公因数47，变成 47 × (99 + 1) = 47 × 100", type := "乘法分配律" } ]

/-- The distinguishable outcomes of the generation call inside
`generateDailyProblems`: the request throwing; a response whose `text` is
missing or empty (`if (!text) throw`); a response text that `JSON.parse`
rejects; or a successful parse, carrying the list of problems the response
text parsed to (the `as MathProblem[]` cast is unchecked, so the parsed list
is arbitrary — in particular of arbitrary length). -/
inductive GenOutcome where
  | throwErr
  | noText
  | badJson (text : String)
  | parsed (problems : List MathProblem)
  deriving Repr

/-- An outcome on which the `try` block fails and control reaches `catch`. -/
def GenOutcome.isFailure : GenOutcome → Bool
  | .throwErr => true
  | .noText => true
  | .badJson _ => true
  | .parsed _ => false

/-- `generateDailyProblems` (`src/index.tsx` lines 22-80) as a function of the
call outcome: every failure is caught and replaced by `fallbackProblems`; a
successful parse is returned as-is (no validation of length or content). -/
def generateDailyProblems : GenOutcome → List MathProblem
  | .throwErr => fallbackProblems
  | .noText => fallbackProblems
  | .badJson _ => fallbackProblems
  | .parsed ps => ps

/-! ### The session state machine (`App`, lines 84-137) -/

/-- The four values of the `gameState` cell (`src/index.tsx` line 85). -/
inductive GameState where
  | intro
  | loading
  | playing
  | summary
  deriving Repr, DecidableEq

/-- The React component state: the six `useState` cells of `App`
(`src/index.tsx` lines 85-91). -/
structure Session where
  gameState : GameState
  problems : List MathProblem
  currentIndex : Nat
  userAnswer : String
  showExplanation : Bool
  history : List HistoryItem
  score : Nat
  deriving Repr, DecidableEq

/-- The initial component state: the `useState` initial values
(`src/index.tsx` lines 85-91). -/
def initialSession : Session :=
  { gameState := .intro
    problems := []
    currentIndex := 0
    userAnswer := ""
    showExplanation := false
    history := []
    score := 0 }

/-- The synchronous part of `startTraining` (`src/index.tsx` line 96): the
screen switches to `loading` before the fetch is awaited. -/
def startClick (s : Session) : Session :=
  { s with gameState := .loading }

/-- The continuation of `startTraining` after the fetch resolves
(`src/index.tsx` lines 97-104): install the fetched problems and reset index,
score, history, answer text and explanation flag, then enter `playing`. -/
def fetchResolve (s : Session) (ps : List MathProblem) : Session :=
  { s with
    gameState := .playing
    problems := ps
    currentIndex := 0
    score := 0
    history := []
    userAnswer := ""
    showExplanation := false }

/-- `handleSubmit` (`src/index.tsx` lines 107-125). An empty answer returns
early with the state unchanged. Otherwise `problems[currentIndex]` is read:
out of range it is `undefined` in JS and the access `currentProblem.answer`
throws, modelled by `none`. In range, the answer is graded, the score bumped
when correct, the record appended to the history and the explanation shown.
The function itself never inspects `showExplanation`. -/
def handleSubmit (s : Session) : Option Session :=
  if s.userAnswer = "" then some s
  else
    match s.problems[s.currentIndex]? with
    | none => none
    | some currentProblem =>
      let isCorrect := gradeAnswer s.userAnswer currentProblem
      some { s with
        score := if isCorrect then s.score + 1 else s.score
        history := s.history ++ [⟨currentProblem, s.userAnswer, isCorrect⟩]
        showExplanation := true }

/-- `handleNext` (`src/index.tsx` lines 127-137): while
`currentIndex < problems.length - 1` (JS number arithmetic, hence the `Int`
comparison) advance to the next problem, clearing the answer text and hiding
the explanation; otherwise switch to the summary screen. The focus timeout is
a DOM effect with no bearing on the state. -/
def handleNext (s : Session) : Session :=
  if (s.currentIndex : Int) < (s.problems.length : Int) - 1 then
    { s with
      currentIndex := s.currentIndex + 1
      userAnswer := ""
      showExplanation := false }
  else
    { s with gameState := .summary }

/-- The states the rendered UI can reach from the initial mount. Each step is
an event handler fired from a state in which its control is actually rendered:
`startTraining` from the intro and summary screens (lines 150-155, 217-222);
the fetch resolution from `loading`; typing in the answer input and submitting
the form only while playing with the explanation hidden (the form renders only
then, lines 259-277); `handleNext` only while the explanation is shown
(lines 297-302). -/
inductive Reachable : Session → Prop
  | init : Reachable initialSession
  | start (s : Session) (hr : Reachable s)
      (hscreen : s.gameState = .intro ∨ s.gameState = .summary) :
      Reachable (startClick s)
  | resolve (s : Session) (ps : List MathProblem) (hr : Reachable s)
      (hscreen : s.gameState = .loading) :
      Reachable (fetchResolve s ps)
  | setAnswer (s : Session) (t : String) (hr : Reachable s)
      (hscreen : s.gameState = .playing) (hrev : s.showExplanation = false) :
      Reachable { s with userAnswer := t }
  | submit (s s' : Session) (hr : Reachable s)
      (hscreen : s.gameState = .playing) (hrev : s.showExplanation = false)
      (hstep : handleSubmit s = some s') :
      Reachable s'
  | next (s : Session) (hr : Reachable s)
      (hscreen : s.gameState = .playing) (hrev : s.showExplanation = true) :
      Reachable (handleNext s)

/-! ### Shape lemmas for the submit handler -/

/-- `handleSubmit` returns early, with the state unchanged, when the pending
answer text is empty (`if (!userAnswer) return`). -/
theorem handleSubmit_empty {s : Session} (h : s.userAnswer = "") :
    handleSubmit s = some s := by
  simp [handleSubmit, h]

/-- Any successful non-empty submit is the grading update on the problem at
the current index: score bump when correct, record appended, explanation
shown, everything else untouched. -/
theorem handleSubmit_eq_some {s s' : Session} (hne : s.userAnswer ≠ "")
    (hstep : handleSubmit s = some s') :
    ∃ p, s.problems[s.currentIndex]? = some p ∧
      s' = { s with
        score := if gradeAnswer s.userAnswer p then s.score + 1 else s.score
        history := s.history ++ [⟨p, s.userAnswer, gradeAnswer s.userAnswer p⟩]
        showExplanation := true } := by
  unfold handleSubmit at hstep
  rw [if_neg hne] at hstep
  cases hp : s.problems[s.currentIndex]? with
  | none => rw [hp] at hstep; exact absurd hstep (by simp)
  | some p =>
    rw [hp] at hstep
    exact ⟨p, rfl, by simpa using hstep.symm⟩

/-! ### The reachable-state invariant -/

/-- The joint invariant maintained by every transition: the score counts the
correct history entries; while playing, the history holds one entry per
answered problem (one more than the index while the explanation is shown);
and while playing the index is in range unless the fetch delivered an empty
list, in which case it is stuck at `0`. -/
def SessionInv (s : Session) : Prop :=
  s.score = (s.history.filter (fun it => it.isCorrect)).length ∧
  (s.gameState = .playing →
    s.history.length = s.currentIndex + (if s.showExplanation then 1 else 0)) ∧
  (s.gameState = .playing →
    s.currentIndex < s.problems.length ∨ (s.currentIndex = 0 ∧ s.problems = []))

/-- Every reachable state satisfies `SessionInv`. -/
theorem reachable_inv {s : Session} (h : Reachable s) : SessionInv s := by
  induction h with
  | init => simp [SessionInv, initialSession]
  | start s hr hscreen ih =>
    obtain ⟨h1, _, _⟩ := ih
    exact ⟨h1, by simp [startClick], by simp [startClick]⟩
  | resolve s ps hr hscreen ih =>
    refine ⟨by simp [fetchResolve], by simp [fetchResolve], ?_⟩
    intro _
    cases ps with
    | nil => exact Or.inr ⟨rfl, rfl⟩
    | cons q qs => exact Or.inl (by simp [fetchResolve])
  | setAnswer s t hr hscreen hrev ih =>
    obtain ⟨h1, h2, h3⟩ := ih
    exact ⟨h1, h2, h3⟩
  | submit s s' hr hscreen hrev hstep ih =>
    obtain ⟨h1, h2, h3⟩ := ih
    by_cases hne : s.userAnswer = ""
    · rw [handleSubmit_empty hne] at hstep
      obtain rfl : s = s' := by simpa using hstep
      exact ⟨h1, h2, h3⟩
    · obtain ⟨p, hp, rfl⟩ := handleSubmit_eq_some hne hstep
      refine ⟨?_, ?_, ?_⟩
      · simp only [List.filter_append, List.length_append]
        cases hcg : gradeAnswer s.userAnswer p <;>
          simp [h1, hcg, List.filter]
      · intro _
        have hlen := h2 hscreen
        rw [hrev] at hlen
        simp at hlen
        simp [hlen]
      · intro _
        simpa using h3 hscreen
  | next s hr hscreen hrev ih =>
    obtain ⟨h1, h2, h3⟩ := ih
    unfold handleNext
    by_cases hc : (s.currentIndex : Int) < (s.problems.length : Int) - 1
    · rw [if_pos hc]
      refine ⟨h1, ?_, ?_⟩
      · intro _
        have hlen := h2 hscreen
        rw [hrev] at hlen
        simp at hlen
        simp [hlen]
      · intro _
        left
        simp only []
        omega
    · rw [if_neg hc]
      exact ⟨h1, by simp, by simp⟩

/-! ### Concrete executions used to instantiate the theorems -/

/-- A concrete problem record used to exercise the transitions. -/
def demoProblem : MathProblem :=
  { question := "25 × 44"
    answer := 1100
    explanation := "四十四等于四乘十一"
    type := "乘法结合律" }

/-- The playing state after starting from the intro screen and resolving the
fetch with a single concrete problem. -/
def demoPlaying : Session := fetchResolve (startClick initialSession) [demoProblem]

theorem demoPlaying_reachable : Reachable demoPlaying :=
  Reachable.resolve (startClick initialSession) [demoProblem]
    (Reachable.start initialSession Reachable.init (Or.inl rfl)) rfl

/-- `demoPlaying` after the user typed `1100` into the answer input. -/
def demoTyped : Session := { demoPlaying with userAnswer := "1100" }

theorem demoTyped_reachable : Reachable demoTyped :=
  Reachable.setAnswer demoPlaying "1100" demoPlaying_reachable rfl rfl

/-- `demoTyped` after submitting: the answer is graded correct, the record is
appended and the explanation is shown. -/
def demoAnswered : Session :=
  { demoTyped with
    score := 1
    history := [{ problem := demoProblem, userAnswer := "1100", isCorrect := true }]
    showExplanation := true }

theorem demoTyped_submit : handleSubmit demoTyped = some demoAnswered := by
  simp +decide [handleSubmit, demoTyped, demoPlaying, demoAnswered, demoProblem,
    fetchResolve, startClick, initialSession, gradeAnswer, parseFloat, takeDigits,
    digitsToNat, parseExponentPart, pow10, List.foldl]

theorem demoAnswered_reachable : Reachable demoAnswered :=
  Reachable.submit demoTyped demoAnswered demoTyped_reachable rfl rfl demoTyped_submit

/-- A summary-screen state with stale score, history, index and answer text,
as left behind by a finished session. -/
def staleSummary : Session :=
  { gameState := .summary
    problems := fallbackProblems
    currentIndex := 2
    userAnswer := "489"
    showExplanation := true
    history := [{ problem := demoProblem, userAnswer := "1100", isCorrect := true }]
    score := 7 }

/-! ### The claims -/

/-- Claim C1: for every problem and every answer text, the grading computation
judges the answer correct if and only if `parseFloat` yields a value for the
text whose absolute difference from the problem's `answer` field is strictly
less than `0.01`; an answer text whose parse yields NaN (`none`) is always
graded incorrect. -/
theorem grading_tolerance_iff (answerText : String) (p : MathProblem) :
    (gradeAnswer answerText p = true ↔
      ∃ v, parseFloat answerText = some v ∧ v.withinTol p.answer) ∧
    (parseFloat answerText = none → gradeAnswer answerText p = false) := by
  unfold gradeAnswer
  cases h : parseFloat answerText with
  | none => simp
  | some v =>
    cases v with
    | inf b => simp [ParsedNum.withinTol]
    | fin q => simp [ParsedNum.withinTol]

theorem grading_tolerance_iff_witness :
    (gradeAnswer "1100" demoProblem = true ↔
      ∃ v, parseFloat "1100" = some v ∧ v.withinTol demoProblem.answer) ∧
    (parseFloat "1100" = none → gradeAnswer "1100" demoProblem = false) :=
  grading_tolerance_iff "1100" demoProblem

/-- Claim C2: in every state reachable from the initial session state via the
start, fetch-resolution, typing, submit and advance transitions, the `score`
field equals the number of history entries whose correctness flag is true. -/
theorem score_counts_correct_history {s : Session} (h : Reachable s) :
    s.score = (s.history.filter (fun it => it.isCorrect)).length :=
  (reachable_inv h).1

theorem score_counts_correct_history_witness :
    demoAnswered.score =
      (demoAnswered.history.filter (fun it => it.isCorrect)).length :=
  score_counts_correct_history demoAnswered_reachable

/-- Claim C3: every failure of the generation call — the request throwing, a
missing or empty response text, or a response text that fails to parse — is
not propagated: `generateDailyProblems` returns exactly the fixed three-element
fallback, whose first question is `25 × 44`, and resolving the fetch with that
result continues the session into `playing` with those three problems. -/
theorem fetch_failure_gives_fallback (o : GenOutcome) (hfail : o.isFailure = true)
    (s : Session) :
    generateDailyProblems o = fallbackProblems ∧
    (generateDailyProblems o).length = 3 ∧
    ((generateDailyProblems o).head?.map (fun p => p.question)) = some "25 × 44" ∧
    (fetchResolve s (generateDailyProblems o)).gameState = .playing ∧
    (fetchResolve s (generateDailyProblems o)).problems = fallbackProblems := by
  have h : generateDailyProblems o = fallbackProblems := by
    cases o with
    | throwErr => rfl
    | noText => rfl
    | badJson t => rfl
    | parsed ps => simp [GenOutcome.isFailure] at hfail
  rw [h]
  exact ⟨rfl, rfl, rfl, rfl, rfl⟩

theorem fetch_failure_gives_fallback_witness :
    generateDailyProblems .noText = fallbackProblems ∧
    (generateDailyProblems .noText).length = 3 ∧
    ((generateDailyProblems .noText).head?.map (fun p => p.question)) =
      some "25 × 44" ∧
    (fetchResolve (startClick initialSession)
      (generateDailyProblems .noText)).gameState = .playing ∧
    (fetchResolve (startClick initialSession)
      (generateDailyProblems .noText)).problems = fallbackProblems :=
  fetch_failure_gives_fallback .noText rfl (startClick initialSession)

/-- Claim C4: in any playing state, submitting with an empty pending answer
text is a no-op: the handler returns the state unchanged, so no history entry
is created, the score is unchanged, the screen remains `playing` and the
explanation flag keeps its value (in particular stays false). -/
theorem empty_submit_noop {s : Session} (hplay : s.gameState = .playing)
    (hempty : s.userAnswer = "") :
    handleSubmit s = some s :=
  handleSubmit_empty hempty

theorem empty_submit_noop_witness :
    handleSubmit demoPlaying = some demoPlaying :=
  empty_submit_noop rfl rfl

/-- Claim C5: from any playing state with the explanation shown and a valid
current index, the advance handler either — when the index is below the last
problem's index — increments the index, clears the answer text and hides the
explanation with the screen staying `playing`, or — when the index is the last
one — switches the screen to `summary`, leaving problems, score and history
unchanged. -/
theorem advance_transition {s : Session} (hplay : s.gameState = .playing)
    (hrev : s.showExplanation = true) (hidx : s.currentIndex < s.problems.length) :
    (s.currentIndex + 1 < s.problems.length →
      handleNext s = { s with
        currentIndex := s.currentIndex + 1
        userAnswer := ""
        showExplanation := false } ∧
      (handleNext s).gameState = .playing) ∧
    (s.currentIndex + 1 = s.problems.length →
      handleNext s = { s with gameState := .summary } ∧
      (handleNext s).problems = s.problems ∧
      (handleNext s).score = s.score ∧
      (handleNext s).history = s.history) := by
  constructor
  · intro hlt
    have hc : (s.currentIndex : Int) < (s.problems.length : Int) - 1 := by omega
    refine ⟨by simp [handleNext, hc], ?_⟩
    simp [handleNext, hc, hplay]
  · intro heq
    have hc : ¬ (s.currentIndex : Int) < (s.problems.length : Int) - 1 := by omega
    refine ⟨by simp [handleNext, hc], ?_, ?_, ?_⟩ <;> simp [handleNext, hc]

theorem advance_transition_witness :
    (demoAnswered.currentIndex + 1 < demoAnswered.problems.length →
      handleNext demoAnswered = { demoAnswered with
        currentIndex := demoAnswered.currentIndex + 1
        userAnswer := ""
        showExplanation := false } ∧
      (handleNext demoAnswered).gameState = .playing) ∧
    (demoAnswered.currentIndex + 1 = demoAnswered.problems.length →
      handleNext demoAnswered = { demoAnswered with gameState := .summary } ∧
      (handleNext demoAnswered).problems = demoAnswered.problems ∧
      (handleNext demoAnswered).score = demoAnswered.score ∧
      (handleNext demoAnswered).history = demoAnswered.history) :=
  advance_transition rfl rfl (by decide)

/-- Claim C6: from any prior state on the intro or summary screen, whatever
the prior score, history and index, the start/restart action first moves the
screen to `loading`, and the resolution of the fetch (success or fallback,
delivering any list `ps`) yields a playing state with index 0, score 0, empty
history, empty pending answer text and hidden explanation. -/
theorem restart_resets {s : Session} (ps : List MathProblem)
    (hscreen : s.gameState = .intro ∨ s.gameState = .summary) :
    (startClick s).gameState = .loading ∧
    (fetchResolve (startClick s) ps).gameState = .playing ∧
    (fetchResolve (startClick s) ps).currentIndex = 0 ∧
    (fetchResolve (startClick s) ps).score = 0 ∧
    (fetchResolve (startClick s) ps).history = [] ∧
    (fetchResolve (startClick s) ps).userAnswer = "" ∧
    (fetchResolve (startClick s) ps).showExplanation = false ∧
    (fetchResolve (startClick s) ps).problems = ps :=
  ⟨rfl, rfl, rfl, rfl, rfl, rfl, rfl, rfl⟩

theorem restart_resets_witness :
    (startClick staleSummary).gameState = .loading ∧
    (fetchResolve (startClick staleSummary) fallbackProblems).gameState = .playing ∧
    (fetchResolve (startClick staleSummary) fallbackProblems).currentIndex = 0 ∧
    (fetchResolve (startClick staleSummary) fallbackProblems).score = 0 ∧
    (fetchResolve (startClick staleSummary) fallbackProblems).history = [] ∧
    (fetchResolve (startClick staleSummary) fallbackProblems).userAnswer = "" ∧
    (fetchResolve (startClick staleSummary) fallbackProblems).showExplanation = false ∧
    (fetchResolve (startClick staleSummary) fallbackProblems).problems = fallbackProblems :=
  restart_resets fallbackProblems (Or.inr rfl)

/-- Claim C7: in every reachable playing state, the history length equals the
current index while the explanation is hidden; a submit (which shows the
explanation) makes it exceed the index by exactly one, and only the advance
transition, by incrementing the index as it hides the explanation, restores
the equality. -/
theorem history_tracks_index {s : Session} (h : Reachable s)
    (hplay : s.gameState = .playing) :
    (s.showExplanation = false → s.history.length = s.currentIndex) ∧
    (s.showExplanation = true → s.history.length = s.currentIndex + 1) := by
  have hinv := (reachable_inv h).2.1 hplay
  constructor <;> intro hrev <;> rw [hrev] at hinv <;> simpa using hinv

theorem history_tracks_index_witness :
    (demoAnswered.showExplanation = false →
      demoAnswered.history.length = demoAnswered.currentIndex) ∧
    (demoAnswered.showExplanation = true →
      demoAnswered.history.length = demoAnswered.currentIndex + 1) :=
  history_tracks_index demoAnswered_reachable rfl

/-- Claim C8 (amended): in every reachable playing state whose problems list
is nonempty — which covers the fallback and every nonempty generation result —
`currentIndex` is a valid index into `problems`. The claim as stated, for
every possible fetch result, fails: the generation call performs no length
check, so a response parsing to the empty list reaches a playing state with no
valid index (`index_invalid_on_empty_fetch`). -/
theorem index_valid_of_problems_nonempty {s : Session} (h : Reachable s)
    (hplay : s.gameState = .playing) (hne : s.problems ≠ []) :
    s.currentIndex < s.problems.length := by
  rcases (reachable_inv h).2.2 hplay with hlt | ⟨_, hnil⟩
  · exact hlt
  · exact absurd hnil hne

theorem index_valid_of_problems_nonempty_witness :
    demoPlaying.currentIndex < demoPlaying.problems.length :=
  index_valid_of_problems_nonempty demoPlaying_reachable rfl (by decide)

/-- The playing state reached when the fetch resolves with the empty list,
i.e. with the result of a generation call whose response text parsed to the
empty JSON array. -/
def emptyFetchSession : Session := fetchResolve (startClick initialSession) []

/-- Claim C8 counterexample: a successful parse of the empty JSON array is a
possible fetch result (`generateDailyProblems` returns it unchecked); the
session it reaches is playing, yet `currentIndex = 0` is not a valid index
into the empty `problems` list. -/
theorem index_invalid_on_empty_fetch :
    Reachable emptyFetchSession ∧
    emptyFetchSession.gameState = .playing ∧
    emptyFetchSession.problems = generateDailyProblems (.parsed []) ∧
    ¬ emptyFetchSession.currentIndex < emptyFetchSession.problems.length :=
  ⟨Reachable.resolve (startClick initialSession) []
      (Reachable.start initialSession Reachable.init (Or.inl rfl)) rfl,
    rfl, rfl, by decide⟩

/-- Claim C9 (amended): on a successful generation call the parsed problem
list is returned verbatim — the code performs no validation of the parsed
value, so the returned sequence has length ten exactly when the model's
response contains ten items; the code does not enforce the count
(`parsed_length_not_always_ten`). -/
theorem parsed_problems_returned_verbatim (ps : List MathProblem) :
    generateDailyProblems (.parsed ps) = ps := rfl

/-- Claim C9 counterexample: a response text parsing to the empty JSON array
is a successful generation call (not a failure), yet the returned problem
list has length 0, not 10. -/
theorem parsed_length_not_always_ten :
    (GenOutcome.parsed []).isFailure = false ∧
    (generateDailyProblems (.parsed [])).length ≠ 10 :=
  ⟨rfl, by decide⟩

/-- Claim C10: `handleSubmit` itself never inspects `showExplanation`: from
any playing state with a non-empty pending answer text and a valid index —
whatever the explanation flag, including when it is already `true` — it
appends a history record for the current problem, bumps the score exactly
when the answer grades correct, and sets the flag; consequently two submit
invocations without an intervening advance append two records for the same
problem. Only the rendering layer, which hides the form while the explanation
is shown (`src/index.tsx` lines 259-277), prevents the double submit. -/
theorem submit_ignores_explanation_flag {s : Session}
    (hplay : s.gameState = .playing) (hne : s.userAnswer ≠ "")
    (hidx : s.currentIndex < s.problems.length) :
    ∃ p s1 s2,
      s.problems[s.currentIndex]? = some p ∧
      handleSubmit s = some s1 ∧
      s1.showExplanation = true ∧
      s1.currentIndex = s.currentIndex ∧
      s1.history = s.history ++ [⟨p, s.userAnswer, gradeAnswer s.userAnswer p⟩] ∧
      s1.score = (if gradeAnswer s.userAnswer p then s.score + 1 else s.score) ∧
      handleSubmit s1 = some s2 ∧
      s2.history = s.history ++
        [⟨p, s.userAnswer, gradeAnswer s.userAnswer p⟩,
          ⟨p, s.userAnswer, gradeAnswer s.userAnswer p⟩] := by
  obtain ⟨p, hp⟩ : ∃ p, s.problems[s.currentIndex]? = some p :=
    ⟨_, List.getElem?_eq_getElem hidx⟩
  have step : ∀ t : Session, t.userAnswer = s.userAnswer → t.problems = s.problems →
      t.currentIndex = s.currentIndex →
      handleSubmit t = some { t with
        score := if gradeAnswer s.userAnswer p then t.score + 1 else t.score
        history := t.history ++ [⟨p, s.userAnswer, gradeAnswer s.userAnswer p⟩]
        showExplanation := true } := by
    intro t h1 h2 h3
    unfold handleSubmit
    rw [h1, if_neg hne, h2, h3, hp]
  have h1 := step s rfl rfl rfl
  have h2 := step { s with
      score := if gradeAnswer s.userAnswer p then s.score + 1 else s.score
      history := s.history ++ [⟨p, s.userAnswer, gradeAnswer s.userAnswer p⟩]
      showExplanation := true } rfl rfl rfl
  exact ⟨p, _, _, hp, h1, rfl, rfl, rfl, rfl, h2, by simp⟩

theorem submit_ignores_explanation_flag_witness :
    ∃ p s1 s2,
      demoAnswered.problems[demoAnswered.currentIndex]? = some p ∧
      handleSubmit demoAnswered = some s1 ∧
      s1.showExplanation = true ∧
      s1.currentIndex = demoAnswered.currentIndex ∧
      s1.history = demoAnswered.history ++
        [⟨p, demoAnswered.userAnswer, gradeAnswer demoAnswered.userAnswer p⟩] ∧
      s1.score = (if gradeAnswer demoAnswered.userAnswer p
        then demoAnswered.score + 1 else demoAnswered.score) ∧
      handleSubmit s1 = some s2 ∧
      s2.history = demoAnswered.history ++
        [⟨p, demoAnswered.userAnswer, gradeAnswer demoAnswered.userAnswer p⟩,
          ⟨p, demoAnswered.userAnswer, gradeAnswer demoAnswered.userAnswer p⟩] :=
  submit_ignores_explanation_flag rfl (by decide) (by decide)

end MathTraining
